import Mathlib

/-!
# Verification of the serpent-tools comparison engine

Shallow embedding of the comparison engine of this repository:
`serpentTools/utils.py` (`directCompare`, `getCommonKeys`,
`getKeyMatchingShapes`) and `serpentTools/objects/base.py`
(`BaseObject.compare`, `BaseObject._checkCompareObj`).

Python floats are modelled as exact rationals (`ℚ`), numpy arrays as a
shape together with a flat list of rational entries, and Python's dynamic
types by an explicit tag (`PyType`).  The process-wide verbosity setting
`rc['verbosity']` is threaded as explicit state, and exceptions are
modelled with `Except`.
-/

/-- `LOWER_LIM_DIVISION = 1E-8`, utils.py line 25: lower limit for the
denominator of the relative-difference division, also the identity
threshold of the verdict ladder. -/
def LOWER_LIM_DIVISION : ℚ := 1 / 100000000

/-- The concrete Python types (`type(obj)`) the comparison engine can
meet.  Distinct unsupported types are distinguished by a numeric id so
that `type0 != type1` keeps its Python meaning; `bool` is its own
concrete type even though Python's `bool` subclasses `int`, because the
source tests membership of `type(obj)` in the tuple `(float, int)`,
which is by type identity. -/
inductive PyType
  | str
  | int
  | float
  | ndarray
  | bool
  | other (id : ℕ)
deriving DecidableEq

/-- A Python value handed to the comparison engine: a string, an int, a
float, a numpy array (shape and flat data), a bool, or a value of some
other unsupported type (identified only by its type id). -/
inductive PyVal
  | s (v : String)
  | i (v : ℤ)
  | f (v : ℚ)
  | arr (shape : List ℕ) (data : List ℚ)
  | b (v : Bool)
  | obj (tyId : ℕ)
deriving DecidableEq

/-- `type(obj)` for the modelled values. -/
def pyType : PyVal → PyType
  | .s _ => .str
  | .i _ => .int
  | .f _ => .float
  | .arr _ _ => .ndarray
  | .b _ => .bool
  | .obj t => .other t

/-- Membership test `type in COMPARE_NUMERICS` where
`COMPARE_NUMERICS = float, int` (utils.py line 298).  Tuple membership
compares the type objects themselves, so `bool` is not a member. -/
def inCompareNumerics : PyType → Bool
  | .float => true
  | .int => true
  | _ => false

/-- The numeric value of an int or float scalar operand.  The other
constructors never reach the arithmetic branches of `directCompare`
(the type guard rules them out); their value here is irrelevant. -/
def scalarVal : PyVal → ℚ
  | .i n => (n : ℚ)
  | .f q => q
  | _ => 0

/-- The verdict notifications `directCompare` can emit, one per branch:
`identical`, `notIdentical`, `acceptableLow`, `acceptableHigh`,
`outsideTols`, `differentTypes` (from serpentTools.messages). -/
inductive Verdict
  | identical
  | notIdentical
  | acceptableLow
  | acceptableHigh
  | outsideTols
  | differentTypes
deriving DecidableEq

/-- Outcome of a `directCompare` call: a verdict notification together
with the returned boolean, or a raised `TypeError` (which carries
`type0`, the type interpolated into the error message). -/
inductive DCResult
  | verdict (v : Verdict) (ret : Bool)
  | typeError (tp : PyType)
deriving DecidableEq

/-- The maximum entry of an array's flat data (`diff.max()`).  numpy
raises on an empty array, which is not modelled; theorems about arrays
assume nonempty data. -/
def listMax : List ℚ → ℚ
  | [] => 0
  | x :: xs => xs.foldl max x

/-- The four-way verdict ladder of `directCompare` on the reduced metric
`maxDiff` (utils.py lines 355-365): the checks run in source order, each
returning at once. -/
def dcLadder (maxDiff lower upper : ℚ) : DCResult :=
  if maxDiff < LOWER_LIM_DIVISION then .verdict .identical true
  else if maxDiff ≤ lower then .verdict .acceptableLow true
  else if maxDiff ≥ upper then .verdict .outsideTols false
  else .verdict .acceptableHigh true

/-- `directCompare(obj0, obj1, lower, upper, quantity)`, utils.py lines
301-370.  The guard on line 336 fires when at least one concrete type is
outside `COMPARE_NUMERICS` and the two concrete types differ.  The
string branch compares for equality.  The numeric branch computes
`diff = fabs(obj0 - obj1) * 100`, divides (element-wise, at the indices
`where(obj0 > LOWER_LIM_DIVISION)`) by the reference `obj0`, reduces by
`diff.max()` for arrays, and runs the verdict ladder.  Any other type
raises `TypeError`.  The `quantity` label only decorates messages and is
not modelled.  Match arms marked unreachable are excluded by the type
guard. -/
def directCompare (obj0 obj1 : PyVal) (lower upper : ℚ) : DCResult :=
  let type0 := pyType obj0
  let type1 := pyType obj1
  if (inCompareNumerics type0 = false ∨ inCompareNumerics type1 = false)
      ∧ type0 ≠ type1 then
    .verdict .differentTypes false
  else if type0 = .str then
    match obj0, obj1 with
    | .s a, .s b =>
        if a ≠ b then .verdict .notIdentical false else .verdict .identical true
    | _, _ => .typeError type0   -- unreachable: the guard forces both strings
  else if inCompareNumerics type0 = true ∨ type0 = .ndarray then
    if type0 = .ndarray then
      match obj0, obj1 with
      | .arr _ d0, .arr _ d1 =>
          let diff := (d0.zip d1).map (fun p => |p.1 - p.2| * 100)
          let divided := (d0.zip diff).map
            (fun p => if p.1 > LOWER_LIM_DIVISION then p.2 / p.1 else p.2)
          dcLadder (listMax divided) lower upper
      | _, _ => .typeError type0   -- unreachable: the guard forces both arrays
    else
      let a := scalarVal obj0
      let b := scalarVal obj1
      let diff := |a - b| * 100
      let divided := if a > LOWER_LIM_DIVISION then diff / a else diff
      dcLadder divided lower upper
  else .typeError type0

/-! ## Spec-side formulation of the numeric comparison (claim C1/C2 wording) -/

/-- Spec formulation: the per-element relative percent difference with the
zero-guard — divide by the reference `a` exactly where `a` exceeds the
epsilon, keep the absolute-scaled difference otherwise. -/
def specRelDiff (a b : ℚ) : ℚ :=
  if a > LOWER_LIM_DIVISION then |a - b| * 100 / a else |a - b| * 100

/-- Spec formulation: the four-way verdict ladder on the reduced metric `m`,
checked in order. -/
def specVerdict (m lower upper : ℚ) : Verdict :=
  if m < LOWER_LIM_DIVISION then .identical
  else if m ≤ lower then .acceptableLow
  else if m ≥ upper then .outsideTols
  else .acceptableHigh

/-- The boolean `directCompare` returns for each verdict it can emit:
Identical, AcceptableLow and AcceptableHigh succeed, OutsideTolerance,
NotIdentical and DifferentTypes fail. -/
def verdictReturns : Verdict → Bool
  | .identical => true
  | .notIdentical => false
  | .acceptableLow => true
  | .acceptableHigh => true
  | .outsideTols => false
  | .differentTypes => false

/-- Spec formulation: the reduced array metric — the maximum over the
element-wise relative differences. -/
def specArrayMetric (d0 d1 : List ℚ) : ℚ :=
  listMax ((d0.zip d1).map (fun p => specRelDiff p.1 p.2))

lemma dcLadder_eq_specVerdict (m lower upper : ℚ) :
    dcLadder m lower upper =
      .verdict (specVerdict m lower upper)
        (verdictReturns (specVerdict m lower upper)) := by
  unfold dcLadder specVerdict
  split_ifs <;> rfl

/-- Fusing the two element-wise passes of the array branch (the diff pass and
the `where`-guarded division pass) into the single spec-side pass. -/
lemma map_divide_zip_eq (d0 d1 : List ℚ) :
    (d0.zip ((d0.zip d1).map (fun p => |p.1 - p.2| * 100))).map
        (fun p => if p.1 > LOWER_LIM_DIVISION then p.2 / p.1 else p.2)
      = (d0.zip d1).map (fun p => specRelDiff p.1 p.2) := by
  induction d0 generalizing d1 with
  | nil => simp
  | cons x xs ih =>
      cases d1 with
      | nil => simp
      | cons y ys => simp [specRelDiff, ih ys]

lemma foldl_max_bounds (xs : List ℚ) (x : ℚ) :
    x ≤ xs.foldl max x ∧ ∀ a ∈ xs, a ≤ xs.foldl max x := by
  induction xs generalizing x with
  | nil => simp
  | cons y ys ih =>
      refine ⟨le_trans (le_max_left x y) (ih (max x y)).1, ?_⟩
      intro a ha
      rcases List.mem_cons.mp ha with rfl | ha
      · exact le_trans (le_max_right x a) (ih (max x a)).1
      · exact (ih (max x y)).2 a ha

lemma le_listMax_of_mem {l : List ℚ} {a : ℚ} (h : a ∈ l) : a ≤ listMax l := by
  cases l with
  | nil => simp at h
  | cons x xs =>
      rcases List.mem_cons.mp h with rfl | h
      · exact (foldl_max_bounds xs a).1
      · exact (foldl_max_bounds xs x).2 a h

lemma get_zip_mem (d0 d1 : List ℚ) (i : ℕ) (h0 : i < d0.length)
    (h1 : i < d1.length) :
    (d0.get ⟨i, h0⟩, d1.get ⟨i, h1⟩) ∈ d0.zip d1 := by
  induction d0 generalizing d1 i with
  | nil => simp at h0
  | cons x xs ih =>
      cases d1 with
      | nil => simp at h1
      | cons y ys =>
          cases i with
          | zero => simp
          | succ n =>
              simp only [List.zip_cons_cons, List.get_cons_succ]
              exact List.mem_cons_of_mem _
                (ih ys n (by simpa using h0) (by simpa using h1))

/-- The array branch of `directCompare`, reduced to the spec-side metric:
the shapes are never consulted and the flat data drives the verdict. -/
lemma directCompare_arr (sh0 sh1 : List ℕ) (d0 d1 : List ℚ) (lower upper : ℚ) :
    directCompare (.arr sh0 d0) (.arr sh1 d1) lower upper =
      .verdict (specVerdict (specArrayMetric d0 d1) lower upper)
        (verdictReturns (specVerdict (specArrayMetric d0 d1) lower upper)) := by
  simp only [directCompare, pyType, inCompareNumerics, specArrayMetric]
  rw [map_divide_zip_eq d0 d1]
  exact dcLadder_eq_specVerdict _ _ _

/-- The scalar branch of `directCompare`, reduced to the spec-side metric. -/
lemma directCompare_scalar (v0 v1 : PyVal) (lower upper : ℚ)
    (h0 : inCompareNumerics (pyType v0) = true)
    (h1 : inCompareNumerics (pyType v1) = true) :
    directCompare v0 v1 lower upper =
      .verdict (specVerdict (specRelDiff (scalarVal v0) (scalarVal v1)) lower upper)
        (verdictReturns
          (specVerdict (specRelDiff (scalarVal v0) (scalarVal v1)) lower upper)) := by
  cases v0 <;> cases v1 <;> simp_all [pyType, inCompareNumerics] <;>
    simp [directCompare, pyType, inCompareNumerics, specRelDiff,
      dcLadder_eq_specVerdict]

/-- C1: for comparable numeric operands, `directCompare` computes the
element-wise relative percent difference with the 1e-8 zero-guard on the
reference value, reduces by the maximum, and selects the verdict by the
four-way ladder (Identical, AcceptableLow, OutsideTolerance,
AcceptableHigh in that order), returning True for all but
OutsideTolerance; and one array element whose relative difference
reaches `upper` forces a False result. -/
theorem directCompare_numeric_policy :
    (∀ (v0 v1 : PyVal) (lower upper : ℚ),
        inCompareNumerics (pyType v0) = true →
        inCompareNumerics (pyType v1) = true →
        directCompare v0 v1 lower upper =
          .verdict (specVerdict (specRelDiff (scalarVal v0) (scalarVal v1)) lower upper)
            (verdictReturns
              (specVerdict (specRelDiff (scalarVal v0) (scalarVal v1)) lower upper)))
  ∧ (∀ (sh : List ℕ) (d0 d1 : List ℚ) (lower upper : ℚ),
        d0.length = d1.length → d0 ≠ [] →
        directCompare (.arr sh d0) (.arr sh d1) lower upper =
          .verdict (specVerdict (specArrayMetric d0 d1) lower upper)
            (verdictReturns (specVerdict (specArrayMetric d0 d1) lower upper)))
  ∧ (∀ (sh : List ℕ) (d0 d1 : List ℚ) (lower upper : ℚ) (i : ℕ)
        (h0 : i < d0.length) (h1 : i < d1.length),
        LOWER_LIM_DIVISION ≤ upper → lower < upper →
        upper ≤ specRelDiff (d0.get ⟨i, h0⟩) (d1.get ⟨i, h1⟩) →
        directCompare (.arr sh d0) (.arr sh d1) lower upper =
          .verdict .outsideTols false) := by
  refine ⟨directCompare_scalar, ?_, ?_⟩
  · intro sh d0 d1 lower upper _ _
    exact directCompare_arr sh sh d0 d1 lower upper
  · intro sh d0 d1 lower upper i h0 h1 heps hlu hup
    have hmem : specRelDiff (d0.get ⟨i, h0⟩) (d1.get ⟨i, h1⟩)
        ∈ (d0.zip d1).map (fun p => specRelDiff p.1 p.2) :=
      List.mem_map_of_mem _ (get_zip_mem d0 d1 i h0 h1)
    have hM : upper ≤ specArrayMetric d0 d1 :=
      le_trans hup (le_listMax_of_mem hmem)
    rw [directCompare_arr sh sh d0 d1 lower upper]
    have hv : specVerdict (specArrayMetric d0 d1) lower upper = .outsideTols := by
      unfold specVerdict
      rw [if_neg (by linarith), if_neg (by linarith), if_pos (by linarith)]
    rw [hv]
    rfl

/-- C1 witness: an array where one element differs by 100 % and the rest
are identical fails against tolerances (1, 10); a scalar pair 2 vs 1
(relative difference 50 %) fails against the same tolerances. -/
theorem directCompare_numeric_policy_witness :
    directCompare (.arr [3] [1, 1, 1]) (.arr [3] [1, 1, 2]) 1 10
        = .verdict .outsideTols false
    ∧ directCompare (.f 2) (.f 1) 1 10 = .verdict .outsideTols false := by
  constructor
  · have h := directCompare_numeric_policy.2.2 [3] [1, 1, 1] [1, 1, 2] 1 10 2
      (by decide) (by decide) (by norm_num [LOWER_LIM_DIVISION])
      (by norm_num) (by norm_num [specRelDiff, LOWER_LIM_DIVISION])
    exact h
  · have h := directCompare_numeric_policy.1 (.f 2) (.f 1) 1 10 (by decide) (by decide)
    rw [h]
    norm_num [scalarVal, specRelDiff, specVerdict, verdictReturns, LOWER_LIM_DIVISION]

lemma dcLadder_ne_differentTypes (m lower upper : ℚ) :
    dcLadder m lower upper ≠ .verdict .differentTypes false := by
  unfold dcLadder
  split_ifs <;> simp

/-- C2 counterexample: `obj0 = 1` is of numeric scalar kind (int), yet
comparing it against the string `"a"` classifies DifferentTypes and
returns False — refuting the claim that DifferentTypes arises only when
*neither* value is numeric. -/
theorem directCompare_differentTypes_cex :
    directCompare (.i 1) (.s "a") 0 10 = .verdict .differentTypes false
    ∧ inCompareNumerics (pyType (.i 1)) = true := by
  exact ⟨by decide, by decide⟩

/-- C2 amended: `directCompare` classifies the pair as DifferentTypes and
returns False exactly when *at least one* value is not of numeric scalar
kind (int or float) and the concrete types differ; int and float never
produce DifferentTypes against each other, while every non-numeric kind
requires an exact type match. -/
theorem directCompare_differentTypes_iff (v0 v1 : PyVal) (lower upper : ℚ) :
    directCompare v0 v1 lower upper = .verdict .differentTypes false
      ↔ ((inCompareNumerics (pyType v0) = false
            ∨ inCompareNumerics (pyType v1) = false)
          ∧ pyType v0 ≠ pyType v1) := by
  cases v0 <;> cases v1 <;>
    simp [directCompare, pyType, inCompareNumerics,
      dcLadder_ne_differentTypes] <;>
    split_ifs <;> simp_all

/-- C10: comparing two bool values raises the unsupported-type TypeError
rather than producing any verdict, whatever the tolerances — `bool` is
not counted numeric because `COMPARE_NUMERICS` membership is by exact
type identity against `(float, int)`. -/
theorem directCompare_bool_raises (x y : Bool) (lower upper : ℚ) :
    directCompare (.b x) (.b y) lower upper = .typeError .bool
    ∧ inCompareNumerics (pyType (.b x)) = false := by
  exact ⟨rfl, rfl⟩

/-- C5 counterexample: a value of unsupported type paired with an int of
different concrete type does *not* raise — the type guard classifies the
pair DifferentTypes and returns False, refuting the claim that every
unsupported-type input raises a TypeError. -/
theorem directCompare_unsupported_cex :
    directCompare (.obj 0) (.i 1) 0 10 = .verdict .differentTypes false := by
  decide

/-- C5 amended: a value whose type is outside {string, int, float,
array} leads to the unsupported-type TypeError exactly when both
operands share that same concrete type; when the concrete types differ
the pair is classified DifferentTypes and False is returned instead of
raising. -/
theorem directCompare_unsupported_raises :
    (∀ (v0 v1 : PyVal) (lower upper : ℚ),
        inCompareNumerics (pyType v0) = false → pyType v0 ≠ .str →
        pyType v0 ≠ .ndarray → pyType v0 = pyType v1 →
        directCompare v0 v1 lower upper = .typeError (pyType v0))
  ∧ (∀ (v0 v1 : PyVal) (lower upper : ℚ),
        inCompareNumerics (pyType v0) = false → pyType v0 ≠ .str →
        pyType v0 ≠ .ndarray → pyType v0 ≠ pyType v1 →
        directCompare v0 v1 lower upper = .verdict .differentTypes false) := by
  constructor
  · intro v0 v1 lower upper hnum hstr harr hty
    cases v0 <;> cases v1 <;> simp_all [directCompare, pyType, inCompareNumerics]
  · intro v0 v1 lower upper hnum hstr harr hty
    cases v0 <;> cases v1 <;> simp_all [directCompare, pyType, inCompareNumerics]

/-- C5 witness: two bools of the same concrete type raise; an
unsupported object against a string gives the DifferentTypes verdict. -/
theorem directCompare_unsupported_raises_witness :
    directCompare (.b true) (.b false) 0 10 = .typeError .bool
    ∧ directCompare (.obj 3) (.s "x") 0 10 = .verdict .differentTypes false := by
  constructor
  · exact directCompare_unsupported_raises.1 (.b true) (.b false) 0 10
      (by decide) (by decide) (by decide) (by decide)
  · exact directCompare_unsupported_raises.2 (.obj 3) (.s "x") 0 10
      (by decide) (by decide) (by decide) (by decide)

/-! ## Key and shape reconciliation (utils.py lines 260-295 and 372-428) -/

/-- Modelled from the spec: the aggregated notifications that
`logMissingKeys`, `logBadTypes` and `logBadShapes` of
serpentTools.messages emit.  That module is not among the sources here;
per the spec each call emits a single aggregated notification carrying
the two collection descriptions and the offending keys (with both types
for a type mismatch and both shapes for a shape mismatch). -/
inductive Notification
  | missingKeys (desc0 desc1 : String) (in0 in1 : Finset String)
  | badTypes (desc0 desc1 : String) (bad : List (String × PyType × PyType))
  | badShapes (desc0 desc1 : String) (bad : List (String × List ℕ × List ℕ))
deriving DecidableEq

/-- `getCommonKeys(d0, d1, desc0, desc1, herald)`, utils.py lines
260-295, on two key iterables: build the two key sets, intersect, and if
the symmetric difference (`missing`) is truthy emit one missing-keys
notification carrying the two one-sided differences.  The `herald`
argument only selects the channel inside `logMissingKeys` and is not
modelled.  Returns the intersection together with the notifications
emitted. -/
def getCommonKeys (k0 k1 : List String) (desc0 desc1 : String) :
    Finset String × List Notification :=
  let s0 := k0.toFinset
  let s1 := k1.toFinset
  let common := s0 ∩ s1
  let missing := (s0 \ s1) ∪ (s1 \ s0)
  if missing ≠ ∅ then
    (common, [.missingKeys desc0 desc1 (s0 \ s1) (s1 \ s0)])
  else (common, [])

/-- `getCommonKeys` on two mappings: Python takes their `keys()`. -/
def getCommonKeysOfMaps {A : Type} (d0 d1 : List (String × A))
    (desc0 desc1 : String) : Finset String × List Notification :=
  getCommonKeys (d0.map Prod.fst) (d1.map Prod.fst) desc0 desc1

/-- The four accumulators of `getKeyMatchingShapes` (utils.py lines
398-401): the two per-side `missing` sets, the `badTypes` and
`badShapes` dictionaries (kept as lists in loop order), and `goodKeys`. -/
structure ShapeAcc where
  missing0 : Finset String
  missing1 : Finset String
  badTypes : List (String × PyType × PyType)
  badShapes : List (String × List ℕ × List ℕ)
  goodKeys : Finset String
deriving DecidableEq

/-- One iteration of the `for key in keySet` loop of
`getKeyMatchingShapes` (utils.py lines 402-419): keys absent on a side
go to that side's missing set; differing concrete types go to
`badTypes`; arrays of differing shape go to `badShapes`; everything else
is accepted. -/
def shapeStep (map0 map1 : List (String × PyVal)) (acc : ShapeAcc)
    (key : String) : ShapeAcc :=
  match map0.lookup key, map1.lookup key with
  | none, none =>
      { acc with missing0 := insert key acc.missing0,
                 missing1 := insert key acc.missing1 }
  | none, some _ => { acc with missing0 := insert key acc.missing0 }
  | some _, none => { acc with missing1 := insert key acc.missing1 }
  | some v0, some v1 =>
      if pyType v0 ≠ pyType v1 then
        { acc with badTypes := acc.badTypes ++ [(key, pyType v0, pyType v1)] }
      else
        match v0, v1 with
        | .arr sh0 _, .arr sh1 _ =>
            if sh0 ≠ sh1 then
              { acc with badShapes := acc.badShapes ++ [(key, sh0, sh1)] }
            else { acc with goodKeys := insert key acc.goodKeys }
        | _, _ => { acc with goodKeys := insert key acc.goodKeys }

/-- The loop of `getKeyMatchingShapes` run over the whole key set,
starting from empty accumulators. -/
def shapeRecon (keySet : List String) (map0 map1 : List (String × PyVal)) :
    ShapeAcc :=
  keySet.foldl (shapeStep map0 map1) ⟨∅, ∅, [], [], ∅⟩

/-- `getKeyMatchingShapes(keySet, map0, map1, desc0, desc1)`, utils.py
lines 372-428: run the loop, then raise at most three aggregated
notifications — missing keys when `any(missing[0]) or any(missing[1])`
(Python `any` over a set of strings is true only when some element is a
truthy, that is nonempty, string), bad types when the `badTypes` dict is
nonempty, bad shapes when the `badShapes` dict is nonempty — and return
the accepted keys. -/
def getKeyMatchingShapes (keySet : List String)
    (map0 map1 : List (String × PyVal)) (desc0 desc1 : String) :
    Finset String × List Notification :=
  let acc := shapeRecon keySet map0 map1
  let n0 : List Notification :=
    if (∃ k ∈ acc.missing0, k ≠ "") ∨ (∃ k ∈ acc.missing1, k ≠ "") then
      [.missingKeys desc0 desc1 acc.missing0 acc.missing1]
    else []
  let n1 : List Notification :=
    if acc.badTypes ≠ [] then [.badTypes desc0 desc1 acc.badTypes] else []
  let n2 : List Notification :=
    if acc.badShapes ≠ [] then [.badShapes desc0 desc1 acc.badShapes] else []
  (acc.goodKeys, n0 ++ n1 ++ n2)

/-- Spec formulation: a key is eligible when it is present in both maps,
the two values have identical concrete types, and — when both values are
arrays — identical shapes. -/
def specKeyEligible (map0 map1 : List (String × PyVal)) (key : String) : Prop :=
  ∃ v0 v1, map0.lookup key = some v0 ∧ map1.lookup key = some v1
    ∧ pyType v0 = pyType v1
    ∧ ∀ sh0 d0 sh1 d1, v0 = .arr sh0 d0 → v1 = .arr sh1 d1 → sh0 = sh1

/-- Spec formulation: an excluded key is recorded in the accumulator
bucket its failure calls for — per-side missing, type mismatch with both
types, or shape mismatch with both shapes. -/
def recordedRight (map0 map1 : List (String × PyVal)) (acc : ShapeAcc)
    (key : String) : Prop :=
  match map0.lookup key, map1.lookup key with
  | none, none => key ∈ acc.missing0 ∧ key ∈ acc.missing1
  | none, some _ => key ∈ acc.missing0
  | some _, none => key ∈ acc.missing1
  | some v0, some v1 =>
      if pyType v0 ≠ pyType v1 then (key, pyType v0, pyType v1) ∈ acc.badTypes
      else ∃ sh0 d0 sh1 d1, v0 = .arr sh0 d0 ∧ v1 = .arr sh1 d1
        ∧ (key, sh0, sh1) ∈ acc.badShapes

lemma symmDiff_ne_empty_iff (k0 k1 : List String) :
    ((k0.toFinset \ k1.toFinset) ∪ (k1.toFinset \ k0.toFinset) ≠ ∅)
      ↔ ∃ k, (k ∈ k0 ∧ k ∉ k1) ∨ (k ∈ k1 ∧ k ∉ k0) := by
  rw [← Finset.nonempty_iff_ne_empty]
  simp [Finset.Nonempty]

/-- C6: `getCommonKeys` always returns exactly the intersection of the
two key sets; it emits exactly one missing-keys notification (carrying
the two one-sided differences) precisely when some key is on one side
only, and no notification otherwise; on `{"a","b"}` and `{"b","c"}` it
returns `{"b"}` with one notification referencing `"a"` and `"c"`. -/
theorem getCommonKeys_spec :
    (∀ (k0 k1 : List String) (desc0 desc1 : String) (k : String),
        k ∈ (getCommonKeys k0 k1 desc0 desc1).1 ↔ (k ∈ k0 ∧ k ∈ k1))
  ∧ (∀ (k0 k1 : List String) (desc0 desc1 : String),
        (getCommonKeys k0 k1 desc0 desc1).2
            = [.missingKeys desc0 desc1 (k0.toFinset \ k1.toFinset)
                (k1.toFinset \ k0.toFinset)]
          ↔ ∃ k, (k ∈ k0 ∧ k ∉ k1) ∨ (k ∈ k1 ∧ k ∉ k0))
  ∧ (∀ (k0 k1 : List String) (desc0 desc1 : String),
        (getCommonKeys k0 k1 desc0 desc1).2 = []
          ↔ ¬ ∃ k, (k ∈ k0 ∧ k ∉ k1) ∨ (k ∈ k1 ∧ k ∉ k0))
  ∧ (∀ (A : Type) (d0 d1 : List (String × A)) (desc0 desc1 : String)
        (k : String),
        k ∈ (getCommonKeysOfMaps d0 d1 desc0 desc1).1
          ↔ ((∃ v, (k, v) ∈ d0) ∧ (∃ v, (k, v) ∈ d1)))
  ∧ getCommonKeys ["a", "b"] ["b", "c"] "first" "second"
      = ({"b"}, [.missingKeys "first" "second" {"a"} {"c"}]) := by
  refine ⟨?_, ?_, ?_, ?_, ?_⟩
  · intro k0 k1 desc0 desc1 k
    simp only [getCommonKeys]
    split_ifs <;> simp
  · intro k0 k1 desc0 desc1
    simp only [getCommonKeys]
    rw [← symmDiff_ne_empty_iff k0 k1]
    split_ifs with h <;> simp [h]
  · intro k0 k1 desc0 desc1
    simp only [getCommonKeys]
    rw [← symmDiff_ne_empty_iff k0 k1]
    split_ifs with h <;> simp [h]
  · intro A d0 d1 desc0 desc1 k
    simp only [getCommonKeysOfMaps, getCommonKeys]
    split_ifs <;> simp [List.mem_map]
  · decide

lemma shapeStep_good_mem (map0 map1 : List (String × PyVal)) (acc : ShapeAcc)
    (x k : String) :
    k ∈ (shapeStep map0 map1 acc x).goodKeys
      ↔ k ∈ acc.goodKeys ∨ (k = x ∧ specKeyEligible map0 map1 x) := by
  unfold shapeStep specKeyEligible
  cases h0 : map0.lookup x <;> cases h1 : map1.lookup x <;> simp [h0, h1]
  rename_i v0 v1
  by_cases hty : pyType v0 = pyType v1
  · simp only [if_pos hty]
    cases v0 <;> cases v1 <;> simp_all [pyType]
    all_goals try (split_ifs <;> simp_all)
    all_goals tauto
  · simp [hty]

lemma foldl_shapeStep_good_mem (map0 map1 : List (String × PyVal))
    (keySet : List String) (acc : ShapeAcc) (k : String) :
    k ∈ (keySet.foldl (shapeStep map0 map1) acc).goodKeys
      ↔ k ∈ acc.goodKeys ∨ (k ∈ keySet ∧ specKeyEligible map0 map1 k) := by
  induction keySet generalizing acc with
  | nil => simp
  | cons x xs ih =>
      rw [List.foldl_cons, ih, shapeStep_good_mem]
      constructor
      · rintro ((h | ⟨rfl, he⟩) | ⟨hx, he⟩)
        · exact Or.inl h
        · exact Or.inr ⟨List.mem_cons_self _ _, he⟩
        · exact Or.inr ⟨List.mem_cons_of_mem _ hx, he⟩
      · rintro (h | ⟨hx, he⟩)
        · exact Or.inl (Or.inl h)
        · rcases List.mem_cons.mp hx with rfl | hx
          · exact Or.inl (Or.inr ⟨rfl, he⟩)
          · exact Or.inr ⟨hx, he⟩

/-- Bucket-wise inclusion of the reconciliation accumulators. -/
def accLE (a b : ShapeAcc) : Prop :=
  a.missing0 ⊆ b.missing0 ∧ a.missing1 ⊆ b.missing1
  ∧ a.badTypes ⊆ b.badTypes ∧ a.badShapes ⊆ b.badShapes

lemma accLE_refl (a : ShapeAcc) : accLE a a :=
  ⟨Finset.Subset.refl _, Finset.Subset.refl _,
    List.Subset.refl _, List.Subset.refl _⟩

lemma accLE_trans {a b c : ShapeAcc} (h1 : accLE a b) (h2 : accLE b c) :
    accLE a c :=
  ⟨h1.1.trans h2.1, h1.2.1.trans h2.2.1,
    h1.2.2.1.trans h2.2.2.1, h1.2.2.2.trans h2.2.2.2⟩

lemma shapeStep_accLE (map0 map1 : List (String × PyVal)) (acc : ShapeAcc)
    (x : String) : accLE acc (shapeStep map0 map1 acc x) := by
  refine ⟨?_, ?_, ?_, ?_⟩ <;> intro p hp <;> unfold shapeStep <;>
    (cases map0.lookup x <;> cases map1.lookup x) <;> repeat' split
  all_goals simp_all

lemma foldl_shapeStep_accLE (map0 map1 : List (String × PyVal))
    (keySet : List String) (acc : ShapeAcc) :
    accLE acc (keySet.foldl (shapeStep map0 map1) acc) := by
  induction keySet generalizing acc with
  | nil => exact accLE_refl acc
  | cons x xs ih =>
      exact accLE_trans (shapeStep_accLE map0 map1 acc x) (ih _)

lemma recordedRight_mono (map0 map1 : List (String × PyVal))
    {a b : ShapeAcc} (hab : accLE a b) (k : String)
    (h : recordedRight map0 map1 a k) : recordedRight map0 map1 b k := by
  unfold recordedRight at h ⊢
  cases h0 : map0.lookup k <;> cases h1 : map1.lookup k <;>
    simp only [h0, h1] at h ⊢
  · exact ⟨hab.1 h.1, hab.2.1 h.2⟩
  · exact hab.1 h
  · exact hab.2.1 h
  · split_ifs with hty
    · rw [if_pos hty] at h
      exact hab.2.2.1 h
    · rw [if_neg hty] at h
      obtain ⟨sh0, d0, sh1, d1, he0, he1, hm⟩ := h
      exact ⟨sh0, d0, sh1, d1, he0, he1, hab.2.2.2 hm⟩

lemma shapeStep_records (map0 map1 : List (String × PyVal)) (acc : ShapeAcc)
    (x : String) (hne : ¬ specKeyEligible map0 map1 x) :
    recordedRight map0 map1 (shapeStep map0 map1 acc x) x := by
  unfold specKeyEligible at hne
  unfold recordedRight shapeStep
  cases h0 : map0.lookup x <;> cases h1 : map1.lookup x <;>
    simp only [h0, h1]
  · exact ⟨Finset.mem_insert_self _ _, Finset.mem_insert_self _ _⟩
  · exact Finset.mem_insert_self _ _
  · exact Finset.mem_insert_self _ _
  · rename_i v0 v1
    by_cases hty : pyType v0 = pyType v1
    · rw [if_neg (not_not_intro hty), if_neg (not_not_intro hty)]
      cases v0 <;> cases v1 <;> simp_all [pyType]
    · rw [if_pos hty, if_pos hty]
      simp

lemma foldl_shapeStep_records (map0 map1 : List (String × PyVal))
    (keySet : List String) (k : String)
    (hne : ¬ specKeyEligible map0 map1 k) :
    ∀ acc, k ∈ keySet →
      recordedRight map0 map1 (keySet.foldl (shapeStep map0 map1) acc) k := by
  induction keySet with
  | nil => intro acc hk; simp at hk
  | cons x xs ih =>
      intro acc hk
      rw [List.foldl_cons]
      rcases List.mem_cons.mp hk with rfl | hx
      · exact recordedRight_mono map0 map1 (foldl_shapeStep_accLE map0 map1 xs _)
          k (shapeStep_records map0 map1 acc k hne)
      · exact ih _ hx

/-- C7: `getKeyMatchingShapes` returns exactly the keys of the input key
set present in both maps whose values have identical concrete types and
— for arrays — identical shapes; every excluded key is recorded in the
matching accumulator bucket (per-side missing, type mismatch with both
types, shape mismatch with both shapes); at most three aggregated
notifications are emitted; and on the spec's example the result is
`{"x"}` with `"y"` reported as a shape mismatch `([2], [5])`. -/
theorem getKeyMatchingShapes_spec :
    (∀ (keySet : List String) (map0 map1 : List (String × PyVal))
        (desc0 desc1 : String) (k : String),
        k ∈ (getKeyMatchingShapes keySet map0 map1 desc0 desc1).1
          ↔ k ∈ keySet ∧ specKeyEligible map0 map1 k)
  ∧ (∀ (keySet : List String) (map0 map1 : List (String × PyVal))
        (k : String), k ∈ keySet → ¬ specKeyEligible map0 map1 k →
        recordedRight map0 map1 (shapeRecon keySet map0 map1) k)
  ∧ (∀ (keySet : List String) (map0 map1 : List (String × PyVal))
        (desc0 desc1 : String),
        (getKeyMatchingShapes keySet map0 map1 desc0 desc1).2.length ≤ 3)
  ∧ getKeyMatchingShapes ["x", "y"]
      [("x", .arr [3] [0, 0, 0]), ("y", .arr [2] [0, 0])]
      [("x", .arr [3] [1, 1, 1]), ("y", .arr [5] [0, 0, 0, 0, 0])]
      "first" "second"
      = ({"x"}, [.badShapes "first" "second" [("y", [2], [5])]]) := by
  refine ⟨?_, ?_, ?_, ?_⟩
  · intro keySet map0 map1 desc0 desc1 k
    simp only [getKeyMatchingShapes, shapeRecon]
    rw [foldl_shapeStep_good_mem]
    simp
  · intro keySet map0 map1 k hk hne
    exact foldl_shapeStep_records map0 map1 keySet k hne _ hk
  · intro keySet map0 map1 desc0 desc1
    simp only [getKeyMatchingShapes]
    split_ifs <;> simp
  · decide

/-! ## The comparable-object protocol (objects/base.py lines 20-110) -/

/-- Structured payloads of the exceptions `BaseObject.compare` can raise:
the two `ValueError`s of the tolerance validation (lines 72-80, each
carrying the numbers its message interpolates), the `TypeError` of
`_checkCompareObj` (lines 108-110, carrying the two class names in
message order), and an exception of type `E` escaping the delegated
`_compare`. -/
inductive CompareErr (E : Type)
  | upperBelowLower (upper lower : ℚ)
  | negativeParam (key : String) (value : ℚ)
  | notInstanceNorSubclass (otherName selfName : String)
  | delegated (e : E)
deriving DecidableEq

/-- Python `int()` truncation toward zero on a rational. -/
def pyInt (q : ℚ) : ℤ := q.num.tdiv (q.den : ℤ)

/-- `BaseObject._checkCompareObj(self, other)`, lines 102-110:
`isinstance(other, self.__class__) or issubclass(other.__class__,
self.__class__)` — both disjuncts amount to the subclass test of
`other`'s class against `self`'s class, written `issub` here.  Returns
the payload of the raised `TypeError`, if any: the two class names in
the order the message interpolates them. -/
def checkCompareObj {C : Type} (issub : C → C → Bool) (clsName : C → String)
    (selfCls otherCls : C) : Option (String × String) :=
  if !(issub otherCls selfCls || issub otherCls selfCls) then
    some (clsName otherCls, clsName selfCls)
  else none

/-- `BaseObject.compare(self, other, lower, upper, sigma, verbosity)`,
objects/base.py lines 28-96.  Classes are an abstract type `C` with
subclass test `issub` and names `clsName`; the process-wide setting
`rc['verbosity']` is threaded as explicit state of type `V`; the
subclass-supplied `_compare` is `delegate`, receiving the active
verbosity and the converted tolerances, returning a boolean or raising
`E`.  Line 69-71 conversions: `float(upper)`, `float(lower)` are
identities on `ℚ`; `sigma = max(0, int(sigma))` truncates then clamps.
The `for` loop over `zip((upper, lower, sigma), ...)` is unrolled into
its three ordered checks; the clamped sigma is never negative, so its
check never fires, exactly as in the source.  `_compareLogPreMsg` only
logs and is not modelled.  There is no `try/finally`: an exception
escaping `_compare` propagates before the restore on lines 93-94 runs.
The result pairs the normal return or raised error with the final state
of `rc['verbosity']`. -/
def BaseObject.compare {C V E : Type} (issub : C → C → Bool)
    (clsName : C → String) (selfCls otherCls : C)
    (lower upper sigma : ℚ) (verbosity : Option V)
    (delegate : V → ℚ → ℚ → ℤ → Except E Bool) (rc : V) :
    Except (CompareErr E) Bool × V :=
  let sigmaC : ℤ := max 0 (pyInt sigma)
  if upper < lower then (.error (.upperBelowLower upper lower), rc)
  else if upper < 0 then (.error (.negativeParam "upper" upper), rc)
  else if lower < 0 then (.error (.negativeParam "lower" lower), rc)
  else if (sigmaC : ℚ) < 0 then (.error (.negativeParam "sigma" (sigmaC : ℚ)), rc)
  else
    match checkCompareObj issub clsName selfCls otherCls with
    | some names => (.error (.notInstanceNorSubclass names.1 names.2), rc)
    | none =>
        let previousVerb : Option V := if verbosity.isSome then some rc else none
        let rcActive := verbosity.getD rc
        match delegate rcActive lower upper sigmaC with
        | .error e => (.error (.delegated e), rcActive)
        | .ok areSimilar => (.ok areSimilar, previousVerb.getD rcActive)

/-- Whether an outcome of `BaseObject.compare` is one of the two
`ValueError`s of the tolerance validation. -/
def isValueError {E V : Type} : Except (CompareErr E) Bool × V → Bool
  | (.error (.upperBelowLower _ _), _) => true
  | (.error (.negativeParam _ _), _) => true
  | _ => false

lemma sigmaCast_nonneg (sigma : ℚ) : ¬ ((max 0 (pyInt sigma) : ℤ) : ℚ) < 0 := by
  rw [not_lt]
  exact_mod_cast le_max_left 0 (pyInt sigma)

lemma pyInt_intCast (n : ℤ) : pyInt (n : ℚ) = n := by
  simp [pyInt, Rat.num_intCast, Rat.den_intCast, Int.tdiv_one]

lemma compare_fail_upperBelowLower {C V E : Type} (issub : C → C → Bool)
    (clsName : C → String) (selfCls otherCls : C) (lower upper sigma : ℚ)
    (verbosity : Option V) (delegate : V → ℚ → ℚ → ℤ → Except E Bool) (rc : V)
    (h : upper < lower) :
    BaseObject.compare issub clsName selfCls otherCls lower upper sigma
        verbosity delegate rc
      = (.error (.upperBelowLower upper lower), rc) := by
  simp only [BaseObject.compare]
  rw [if_pos h]

lemma compare_fail_negUpper {C V E : Type} (issub : C → C → Bool)
    (clsName : C → String) (selfCls otherCls : C) (lower upper sigma : ℚ)
    (verbosity : Option V) (delegate : V → ℚ → ℚ → ℤ → Except E Bool) (rc : V)
    (h1 : ¬ upper < lower) (h2 : upper < 0) :
    BaseObject.compare issub clsName selfCls otherCls lower upper sigma
        verbosity delegate rc
      = (.error (.negativeParam "upper" upper), rc) := by
  simp only [BaseObject.compare]
  rw [if_neg h1, if_pos h2]

lemma compare_fail_negLower {C V E : Type} (issub : C → C → Bool)
    (clsName : C → String) (selfCls otherCls : C) (lower upper sigma : ℚ)
    (verbosity : Option V) (delegate : V → ℚ → ℚ → ℤ → Except E Bool) (rc : V)
    (h1 : ¬ upper < lower) (h2 : ¬ upper < 0) (h3 : lower < 0) :
    BaseObject.compare issub clsName selfCls otherCls lower upper sigma
        verbosity delegate rc
      = (.error (.negativeParam "lower" lower), rc) := by
  simp only [BaseObject.compare]
  rw [if_neg h1, if_neg h2, if_pos h3]

lemma compare_fail_class {C V E : Type} (issub : C → C → Bool)
    (clsName : C → String) (selfCls otherCls : C) (lower upper sigma : ℚ)
    (verbosity : Option V) (delegate : V → ℚ → ℚ → ℤ → Except E Bool) (rc : V)
    (h1 : ¬ upper < lower) (h2 : ¬ upper < 0) (h3 : ¬ lower < 0)
    (hsub : issub otherCls selfCls = false) :
    BaseObject.compare issub clsName selfCls otherCls lower upper sigma
        verbosity delegate rc
      = (.error (.notInstanceNorSubclass (clsName otherCls) (clsName selfCls)),
          rc) := by
  simp only [BaseObject.compare]
  rw [if_neg h1, if_neg h2, if_neg h3, if_neg (sigmaCast_nonneg sigma)]
  simp [checkCompareObj, hsub]

lemma compare_main {C V E : Type} (issub : C → C → Bool)
    (clsName : C → String) (selfCls otherCls : C) (lower upper sigma : ℚ)
    (verbosity : Option V) (delegate : V → ℚ → ℚ → ℤ → Except E Bool) (rc : V)
    (h1 : ¬ upper < lower) (h2 : ¬ upper < 0) (h3 : ¬ lower < 0)
    (hsub : issub otherCls selfCls = true) :
    BaseObject.compare issub clsName selfCls otherCls lower upper sigma
        verbosity delegate rc
      = match delegate (verbosity.getD rc) lower upper (max 0 (pyInt sigma)) with
        | .error e => (.error (.delegated e), verbosity.getD rc)
        | .ok b =>
            (.ok b, ((if verbosity.isSome then some rc else none) : Option V).getD
              (verbosity.getD rc)) := by
  simp only [BaseObject.compare]
  rw [if_neg h1, if_neg h2, if_neg h3, if_neg (sigmaCast_nonneg sigma)]
  simp [checkCompareObj, hsub]

lemma compare_snd_none {C V E : Type} (issub : C → C → Bool)
    (clsName : C → String) (selfCls otherCls : C) (lower upper sigma : ℚ)
    (delegate : V → ℚ → ℚ → ℤ → Except E Bool) (rc : V) :
    (BaseObject.compare issub clsName selfCls otherCls lower upper sigma
        none delegate rc).2 = rc := by
  simp only [BaseObject.compare]
  split_ifs
  all_goals try rfl
  all_goals cases hchk : checkCompareObj issub clsName selfCls otherCls
  all_goals simp only [hchk]
  all_goals cases hdel : delegate ((none : Option V).getD rc) lower upper (max 0 (pyInt sigma))
  all_goals simp [hdel]

lemma compare_fst_indep {C V E : Type} (issub : C → C → Bool)
    (clsName : C → String) (selfCls otherCls : C) (lower upper sigma : ℚ)
    (v : V) (delegate : V → ℚ → ℚ → ℤ → Except E Bool) (rc rc' : V) :
    (BaseObject.compare issub clsName selfCls otherCls lower upper sigma
        (some v) delegate rc).1
      = (BaseObject.compare issub clsName selfCls otherCls lower upper sigma
          (some v) delegate rc').1 := by
  simp only [BaseObject.compare, Option.getD_some]
  split_ifs
  all_goals try rfl
  all_goals cases hchk : checkCompareObj issub clsName selfCls otherCls
  all_goals simp only [hchk]
  all_goals cases hdel : delegate v lower upper (max 0 (pyInt sigma))
  all_goals simp [hdel]

/-- C4: `BaseObject.compare` raises a ValueError exactly when
`upper < lower` or `lower` or `upper` is negative, with the offending
numbers in the message payload (both numbers for the ordering
violation); a negative sigma never raises — `sigma` is truncated to an
integer and clamped at 0, so the call behaves exactly as with the
clamped value — and a failed validation returns the same error for
every delegate, with the verbosity state untouched, before any
comparison executes. -/
theorem compare_tolerance_validation :
    (∀ (C V E : Type) (issub : C → C → Bool) (clsName : C → String)
        (selfCls otherCls : C) (lower upper sigma : ℚ) (verbosity : Option V)
        (delegate : V → ℚ → ℚ → ℤ → Except E Bool) (rc : V),
        upper < lower →
        BaseObject.compare issub clsName selfCls otherCls lower upper sigma
            verbosity delegate rc
          = (.error (.upperBelowLower upper lower), rc))
  ∧ (∀ (C V E : Type) (issub : C → C → Bool) (clsName : C → String)
        (selfCls otherCls : C) (lower upper sigma : ℚ) (verbosity : Option V)
        (delegate : V → ℚ → ℚ → ℤ → Except E Bool) (rc : V),
        isValueError (BaseObject.compare issub clsName selfCls otherCls lower
            upper sigma verbosity delegate rc) = true
          ↔ (upper < lower ∨ upper < 0 ∨ lower < 0))
  ∧ (∀ (C V E : Type) (issub : C → C → Bool) (clsName : C → String)
        (selfCls otherCls : C) (lower upper sigma : ℚ) (verbosity : Option V)
        (delegate : V → ℚ → ℚ → ℤ → Except E Bool) (rc : V),
        BaseObject.compare issub clsName selfCls otherCls lower upper sigma
            verbosity delegate rc
          = BaseObject.compare issub clsName selfCls otherCls lower upper
              ((max 0 (pyInt sigma) : ℤ) : ℚ) verbosity delegate rc)
  ∧ (∀ (C V E : Type) (issub : C → C → Bool) (clsName : C → String)
        (selfCls otherCls : C) (lower upper sigma : ℚ) (verbosity : Option V)
        (delegate delegate' : V → ℚ → ℚ → ℤ → Except E Bool) (rc : V),
        (upper < lower ∨ upper < 0 ∨ lower < 0) →
        BaseObject.compare issub clsName selfCls otherCls lower upper sigma
            verbosity delegate rc
          = BaseObject.compare issub clsName selfCls otherCls lower upper sigma
              verbosity delegate' rc
        ∧ (BaseObject.compare issub clsName selfCls otherCls lower upper sigma
            verbosity delegate rc).2 = rc) := by
  refine ⟨?_, ?_, ?_, ?_⟩
  · intro C V E issub clsName selfCls otherCls lower upper sigma verbosity
      delegate rc h
    exact compare_fail_upperBelowLower _ _ _ _ _ _ _ _ _ _ h
  · intro C V E issub clsName selfCls otherCls lower upper sigma verbosity
      delegate rc
    constructor
    · intro h
      by_contra hc
      push_neg at hc
      obtain ⟨h1, h2, h3⟩ := hc
      have h1' : ¬ upper < lower := not_lt.mpr h1
      have h2' : ¬ upper < 0 := not_lt.mpr h2
      have h3' : ¬ lower < 0 := not_lt.mpr h3
      cases hsub : issub otherCls selfCls with
      | false =>
          rw [compare_fail_class _ _ _ _ _ _ _ _ _ _ h1' h2' h3' hsub] at h
          simp [isValueError] at h
      | true =>
          rw [compare_main _ _ _ _ _ _ _ _ _ _ h1' h2' h3' hsub] at h
          revert h
          cases hdel : delegate (verbosity.getD rc) lower upper
              (max 0 (pyInt sigma)) <;> simp [isValueError]
    · intro h
      by_cases c1 : upper < lower
      · rw [compare_fail_upperBelowLower _ _ _ _ _ _ _ _ _ _ c1]
        rfl
      · by_cases c2 : upper < 0
        · rw [compare_fail_negUpper _ _ _ _ _ _ _ _ _ _ c1 c2]
          rfl
        · have c3 : lower < 0 := by tauto
          rw [compare_fail_negLower _ _ _ _ _ _ _ _ _ _ c1 c2 c3]
          rfl
  · intro C V E issub clsName selfCls otherCls lower upper sigma verbosity
      delegate rc
    have h : max 0 (pyInt ((max 0 (pyInt sigma) : ℤ) : ℚ)) = max 0 (pyInt sigma) := by
      rw [pyInt_intCast, ← max_assoc, max_self]
    simp only [BaseObject.compare, h]
  · intro C V E issub clsName selfCls otherCls lower upper sigma verbosity
      delegate delegate' rc h
    by_cases c1 : upper < lower
    · rw [compare_fail_upperBelowLower _ _ _ _ _ _ _ _ _ _ c1,
        compare_fail_upperBelowLower _ _ _ _ _ _ _ _ _ _ c1]
      exact ⟨rfl, rfl⟩
    · by_cases c2 : upper < 0
      · rw [compare_fail_negUpper _ _ _ _ _ _ _ _ _ _ c1 c2,
          compare_fail_negUpper _ _ _ _ _ _ _ _ _ _ c1 c2]
        exact ⟨rfl, rfl⟩
      · have c3 : lower < 0 := by tauto
        rw [compare_fail_negLower _ _ _ _ _ _ _ _ _ _ c1 c2 c3,
          compare_fail_negLower _ _ _ _ _ _ _ _ _ _ c1 c2 c3]
        exact ⟨rfl, rfl⟩

/-- C4 witness: `compare(..., lower=10, upper=5)` raises the ordering
ValueError carrying both numbers and leaves the state untouched, while
`compare(..., sigma=-1)` proceeds exactly as with `sigma=0`. -/
theorem compare_tolerance_validation_witness :
    BaseObject.compare (fun _ _ : Unit => true) (fun _ => "Base") () ()
        10 5 2 (none : Option String)
        (fun _ _ _ _ => (Except.ok true : Except Unit Bool)) "info"
      = (.error (.upperBelowLower 5 10), "info")
    ∧ BaseObject.compare (fun _ _ : Unit => true) (fun _ => "Base") () ()
        0 10 (-1) (none : Option String)
        (fun _ _ _ _ => (Except.ok true : Except Unit Bool)) "info"
      = BaseObject.compare (fun _ _ : Unit => true) (fun _ => "Base") () ()
          0 10 0 (none : Option String)
          (fun _ _ _ _ => (Except.ok true : Except Unit Bool)) "info" := by
  constructor
  · exact compare_tolerance_validation.1 Unit String Unit _ _ () ()
      10 5 2 none _ "info" (by norm_num)
  · have h := compare_tolerance_validation.2.2.1 Unit String Unit
      (fun _ _ : Unit => true) (fun _ => "Base") () () 0 10 (-1) none
      (fun _ _ _ _ => (Except.ok true : Except Unit Bool)) "info"
    rw [h]
    rfl

/-- A two-class hierarchy for the directional class-compatibility check:
`Derived` subclasses `Base`. -/
inductive DemoCls
  | base
  | derived
deriving DecidableEq

/-- `issubclass` for the demo hierarchy: reflexive, and `Derived` is a
subclass of `Base` but not the other way round. -/
def demoSub : DemoCls → DemoCls → Bool
  | .derived, _ => true
  | .base, .base => true
  | .base, .derived => false

def demoName : DemoCls → String
  | .base => "Base"
  | .derived => "Derived"

/-- A `_compare` implementation for the demo classes that accepts. -/
def demoDelegate : String → ℚ → ℚ → ℤ → Except Unit Bool :=
  fun _ _ _ _ => .ok true

/-- C8: with valid tolerances, `BaseObject.compare` raises a TypeError
carrying both class names exactly when `other`'s class is not `self`'s
class nor a subclass of it; the check is one-directional — a base-class
instance compares fine against a subclass instance while the reverse
raises. -/
theorem compare_class_compat :
    (∀ (C V E : Type) (issub : C → C → Bool) (clsName : C → String)
        (selfCls otherCls : C) (lower upper sigma : ℚ) (verbosity : Option V)
        (delegate : V → ℚ → ℚ → ℤ → Except E Bool) (rc : V),
        ¬ upper < lower → ¬ upper < 0 → ¬ lower < 0 →
        issub otherCls selfCls = false →
        BaseObject.compare issub clsName selfCls otherCls lower upper sigma
            verbosity delegate rc
          = (.error (.notInstanceNorSubclass (clsName otherCls)
              (clsName selfCls)), rc))
  ∧ (∀ (C V E : Type) (issub : C → C → Bool) (clsName : C → String)
        (selfCls otherCls : C) (lower upper sigma : ℚ) (verbosity : Option V)
        (delegate : V → ℚ → ℚ → ℤ → Except E Bool) (rc : V),
        issub otherCls selfCls = true →
        ∀ oN sN, (BaseObject.compare issub clsName selfCls otherCls lower
            upper sigma verbosity delegate rc).1
          ≠ .error (.notInstanceNorSubclass oN sN))
  ∧ (∀ rc : String,
        BaseObject.compare demoSub demoName DemoCls.base DemoCls.derived
            0 10 2 none demoDelegate rc
          = (.ok true, rc))
  ∧ (∀ rc : String,
        BaseObject.compare demoSub demoName DemoCls.derived DemoCls.base
            0 10 2 none demoDelegate rc
          = (.error (.notInstanceNorSubclass "Base" "Derived"), rc)) := by
  refine ⟨?_, ?_, ?_, ?_⟩
  · intro C V E issub clsName selfCls otherCls lower upper sigma verbosity
      delegate rc h1 h2 h3 hsub
    exact compare_fail_class _ _ _ _ _ _ _ _ _ _ h1 h2 h3 hsub
  · intro C V E issub clsName selfCls otherCls lower upper sigma verbosity
      delegate rc hsub oN sN
    by_cases c1 : upper < lower
    · rw [compare_fail_upperBelowLower _ _ _ _ _ _ _ _ _ _ c1]
      simp
    · by_cases c2 : upper < 0
      · rw [compare_fail_negUpper _ _ _ _ _ _ _ _ _ _ c1 c2]
        simp
      · by_cases c3 : lower < 0
        · rw [compare_fail_negLower _ _ _ _ _ _ _ _ _ _ c1 c2 c3]
          simp
        · rw [compare_main _ _ _ _ _ _ _ _ _ _ c1 c2 c3 hsub]
          cases hdel : delegate (verbosity.getD rc) lower upper
              (max 0 (pyInt sigma)) <;> simp
  · intro rc
    rfl
  · intro rc
    rfl

/-- C8 witness: comparing a `Derived` instance against a `Base` instance
raises the TypeError naming both classes. -/
theorem compare_class_compat_witness :
    BaseObject.compare demoSub demoName DemoCls.derived DemoCls.base
        0 10 2 (none : Option String)
        (fun _ _ _ _ => (Except.ok true : Except Unit Bool)) "info"
      = (.error (.notInstanceNorSubclass "Base" "Derived"), "info") := by
  exact compare_class_compat.1 DemoCls String Unit demoSub demoName
    DemoCls.derived DemoCls.base 0 10 2 none
    (fun _ _ _ _ => (Except.ok true : Except Unit Bool)) "info"
    (by norm_num) (by norm_num) (by norm_num) rfl

/-- C3 counterexample: with a verbosity override and a `_compare` that
raises, the process-wide setting is left at the override — the claim
that the previous value is restored regardless of outcome fails,
because lines 93-94 of objects/base.py run only when `_compare` returns
(there is no try/finally). -/
theorem compare_verbosity_cex :
    (BaseObject.compare (fun _ _ : Unit => true) (fun _ => "A") () ()
        0 10 2 (some "debug")
        (fun _ _ _ _ => (Except.error () : Except Unit Bool)) "info").2
      = "debug"
    ∧ "debug" ≠ "info" := by
  exact ⟨rfl, by decide⟩

/-- C3 amended: a supplied verbosity override is restored when the
delegated `_compare` returns normally, and a `None` verbosity never
touches the process-wide setting; but when `_compare` raises under an
override, the exception propagates with the override left in place. -/
theorem compare_verbosity_scope :
    (∀ (C V E : Type) (issub : C → C → Bool) (clsName : C → String)
        (selfCls otherCls : C) (lower upper sigma : ℚ) (verbosity : Option V)
        (delegate : V → ℚ → ℚ → ℤ → Except E Bool) (rc : V) (b : Bool)
        (final : V),
        BaseObject.compare issub clsName selfCls otherCls lower upper sigma
            verbosity delegate rc = (.ok b, final) → final = rc)
  ∧ (∀ (C V E : Type) (issub : C → C → Bool) (clsName : C → String)
        (selfCls otherCls : C) (lower upper sigma : ℚ)
        (delegate : V → ℚ → ℚ → ℤ → Except E Bool) (rc : V),
        (BaseObject.compare issub clsName selfCls otherCls lower upper sigma
            none delegate rc).2 = rc)
  ∧ (∀ (C V E : Type) (issub : C → C → Bool) (clsName : C → String)
        (selfCls otherCls : C) (lower upper sigma : ℚ) (v : V) (e : E)
        (delegate : V → ℚ → ℚ → ℤ → Except E Bool) (rc : V),
        ¬ upper < lower → ¬ upper < 0 → ¬ lower < 0 →
        issub otherCls selfCls = true →
        delegate v lower upper (max 0 (pyInt sigma)) = .error e →
        BaseObject.compare issub clsName selfCls otherCls lower upper sigma
            (some v) delegate rc
          = (.error (.delegated e), v)) := by
  refine ⟨?_, ?_, ?_⟩
  · intro C V E issub clsName selfCls otherCls lower upper sigma verbosity
      delegate rc b final h
    by_cases c1 : upper < lower
    · rw [compare_fail_upperBelowLower _ _ _ _ _ _ _ _ _ _ c1] at h
      simp at h
    · by_cases c2 : upper < 0
      · rw [compare_fail_negUpper _ _ _ _ _ _ _ _ _ _ c1 c2] at h
        simp at h
      · by_cases c3 : lower < 0
        · rw [compare_fail_negLower _ _ _ _ _ _ _ _ _ _ c1 c2 c3] at h
          simp at h
        · cases hsub : issub otherCls selfCls with
          | false =>
              rw [compare_fail_class _ _ _ _ _ _ _ _ _ _ c1 c2 c3 hsub] at h
              simp at h
          | true =>
              rw [compare_main _ _ _ _ _ _ _ _ _ _ c1 c2 c3 hsub] at h
              revert h
              cases hdel : delegate (verbosity.getD rc) lower upper
                  (max 0 (pyInt sigma)) with
              | error e => simp
              | ok c =>
                  cases verbosity <;> simp <;> exact fun _ h => h.symm
  · intro C V E issub clsName selfCls otherCls lower upper sigma delegate rc
    exact compare_snd_none _ _ _ _ _ _ _ _ _
  · intro C V E issub clsName selfCls otherCls lower upper sigma v e delegate
      rc h1 h2 h3 hsub hdel
    rw [compare_main _ _ _ _ _ _ _ _ _ _ h1 h2 h3 hsub]
    simp [hdel]

/-- C3 witness: a raising `_compare` under an override `"debug"` of a
previous `"info"` leaves the setting at `"debug"`, by the amended
theorem applied at that input. -/
theorem compare_verbosity_scope_witness :
    BaseObject.compare (fun _ _ : Unit => true) (fun _ => "A") () ()
        0 10 2 (some "debug")
        (fun _ _ _ _ => (Except.error () : Except Unit Bool)) "info"
      = (.error (.delegated ()), "debug") := by
  exact compare_verbosity_scope.2.2 Unit String Unit
    (fun _ _ : Unit => true) (fun _ => "A") () () 0 10 2 "debug" ()
    (fun _ _ _ _ => (Except.error () : Except Unit Bool)) "info"
    (by norm_num) (by norm_num) (by norm_num) rfl rfl

/-- C9: comparison is deterministic across two runs — running
`BaseObject.compare` a second time with the same arguments, starting
from the state the first run left behind, yields the identical outcome
(same boolean or same raised error), and `directCompare` is a pure
function of its inputs. -/
theorem compare_two_runs_deterministic :
    (∀ (C V E : Type) (issub : C → C → Bool) (clsName : C → String)
        (selfCls otherCls : C) (lower upper sigma : ℚ) (verbosity : Option V)
        (delegate : V → ℚ → ℚ → ℤ → Except E Bool) (rc : V),
        (BaseObject.compare issub clsName selfCls otherCls lower upper sigma
            verbosity delegate
            (BaseObject.compare issub clsName selfCls otherCls lower upper
              sigma verbosity delegate rc).2).1
          = (BaseObject.compare issub clsName selfCls otherCls lower upper
              sigma verbosity delegate rc).1)
  ∧ (∀ (v0 v1 : PyVal) (lower upper : ℚ),
        directCompare v0 v1 lower upper = directCompare v0 v1 lower upper) := by
  constructor
  · intro C V E issub clsName selfCls otherCls lower upper sigma verbosity
      delegate rc
    cases verbosity with
    | none => rw [compare_snd_none]
    | some v => exact compare_fst_indep _ _ _ _ _ _ _ _ _ _ _
  · intro v0 v1 lower upper
    rfl
